import Mathlib

/-!
Verification of the persistentcache-rs core against its specification.

The development shallowly embeds the library's storage backends and the
get-or-compute orchestration:

* `FileStorage.get` / `FileStorage.set` / `FileStorage.flush` embed
  `src/storage/file.rs`.  The physical directory is modelled by `Dir`: an
  association list from file name to `FileEntry`, plus fault flags that model
  OS-level outcomes (`openable` — whether `File::open` succeeds on an existing
  file; `readable` — whether `lock_exclusive`/`read_to_end` succeed after a
  successful open; `Dir.writable` — whether `File::create`/`write_all` succeed
  for a given name).
* `FileMemoryStorage.get` / `FileMemoryStorage.set` embed
  `src/storage/file_memory.rs`; the process-local HashMap is an association
  list `mem`.
* `RedisStorage.get` / `RedisStorage.set` / `RedisStorage.flush` embed
  `src/storage/redis.rs`; the remote database is an association list and the
  connection is a liveness flag.  Issued commands (KEYS / DEL) are recorded in
  a trace.
* `cacheCall` embeds the body of the `cache!` macro
  (`src/persistentcache.rs`, the part after the key string is computed), with
  the storage abstracted to the byte-map model of the spec's StoredEntry and
  the single evaluation of `$func(...)` counted in `calls`.
* `deriveKey` embeds the key construction
  `format!("{}_{}_{}_{:?}", PREFIX, $prefix, stringify!($f), s.finish())`
  where `s` is `DefaultHasher` (SipHash-1-3 with both keys zero), fed the
  argument tuple; one argument's `Hash::hash` contribution is an arbitrary
  byte string (`contrib`), matching Rust's `Hash` contract, and `sip13`
  implements the hash itself.
* The locking structure of the `cache_func!` macro and of the
  `#[persistent_cache]` expansion is embedded as the action trace
  `cacheFuncMissTrace` together with a mutex-validity predicate on
  interleavings of several threads.
-/

/-- Byte strings (`Vec<u8>`); byte values are naturals below 256. -/
abbrev Bytes := List Nat

/-- `PREFIX` from `src/lib.rs`: every stored variable is prefixed by this. -/
def PREFIX : String := "pc"

/-- First-match association-list lookup (the map model used for directories,
the in-memory HashMap and the Redis database). -/
def lookupA {β : Type} : List (String × β) → String → Option β
  | [], _ => none
  | (k, v) :: r, n => if k = n then some v else lookupA r n

/-- Insert-or-replace for association lists (`HashMap::insert`,
create-or-truncate of a file, Redis `SET`). -/
def insertA {β : Type} : List (String × β) → String → β → List (String × β)
  | [], k, v => [(k, v)]
  | (k', v') :: r, k, v => if k' = k then (k, v) :: r else (k', v') :: insertA r k v

theorem lookupA_insertA_self {β : Type} (l : List (String × β)) (k : String) (v : β) :
    lookupA (insertA l k v) k = some v := by
  induction l with
  | nil => simp [insertA, lookupA]
  | cons p r ih =>
    obtain ⟨k', v'⟩ := p
    by_cases h : k' = k
    · simp [insertA, h, lookupA]
    · simp [insertA, h, lookupA, ih]

theorem lookupA_insertA_ne {β : Type} (l : List (String × β)) (k n : String) (v : β)
    (h : k ≠ n) : lookupA (insertA l k v) n = lookupA l n := by
  induction l with
  | nil => simp [insertA, lookupA, h]
  | cons p r ih =>
    obtain ⟨k', v'⟩ := p
    by_cases hk : k' = k
    · subst hk
      simp [insertA, lookupA, h, ih]
    · simp [insertA, hk, lookupA, ih]

/-- Lookup in a list filtered by a predicate on the key alone. -/
theorem lookupA_filter {β : Type} (q : String → Bool) (l : List (String × β)) (n : String) :
    lookupA (l.filter (fun p => q p.1)) n =
      if q n then lookupA l n else none := by
  induction l with
  | nil => simp [lookupA]
  | cons p r ih =>
    obtain ⟨k, v⟩ := p
    by_cases hk : k = n
    · subst hk
      by_cases hq : q k
      · simp [List.filter, hq, lookupA, ih]
      · simp [List.filter, hq, lookupA, ih]
    · by_cases hq : q k
      · simp [List.filter, hq, lookupA, hk, ih]
      · simp [List.filter, hq, lookupA, hk, ih]

/-- Error taxonomy of the core (spec section 7).  `ioError` stands for the
file-backend `IOError`s, `connectionError` for Redis connection faults. -/
inductive Err where
  | ioError
  | connectionError
deriving DecidableEq, Repr

/-- One file of the storage directory: its contents plus the fault flags for
the operations the Rust code performs on it.  `openable = false` models an
existing file whose `File::open` fails (e.g. denied permission);
`readable = false` models a `lock_exclusive`/`read_to_end` failure after a
successful open. -/
structure FileEntry where
  content : Bytes
  openable : Bool
  readable : Bool

/-- The storage directory of `FileStorage` (flat: one file per key) together
with the write-fault model for `File::create`/`write_all`. -/
structure Dir where
  files : List (String × FileEntry)
  writable : String → Bool

/-- `Regex::new(&format!(r"^{}/{}_", dir, PREFIX)).is_match(f)` for the
literal patterns the code builds: an anchored literal-prefix match. -/
def reAnchorMatch (pat s : String) : Bool :=
  pat.data.isPrefixOf s.data

namespace FileStorage

/-- `FileStorage::get` (src/storage/file.rs).  `File::open` failing for any
reason — absent file or any other open error — yields `Ok(vec![])`; after a
successful open, a lock/read failure is an `IOError`. -/
def get (d : Dir) (name : String) : Except Err Bytes :=
  match lookupA d.files name with
  | none => .ok []
  | some e =>
    if e.openable then
      if e.readable then .ok e.content else .error .ioError
    else .ok []

/-- `FileStorage::set` (src/storage/file.rs): create-or-truncate the file and
write `val` in full; a create/write fault is an `IOError`.  A file just
written by us is present with no fault flags set. -/
def set (d : Dir) (name : String) (val : Bytes) : Except Err Dir :=
  if d.writable name then
    .ok { d with files := insertA d.files name ⟨val, true, true⟩ }
  else .error .ioError

/-- `FileStorage::flush` (src/storage/file.rs): enumerate the directory and
remove every file whose full path `{path}/{name}` matches the anchored
pattern `^{path}/{PREFIX}_` (deletions modelled as succeeding). -/
def flush (path : String) (d : Dir) : Dir :=
  { d with
    files := d.files.filter fun p =>
      !(reAnchorMatch (path ++ "/" ++ PREFIX ++ "_") (path ++ "/" ++ p.1)) }

end FileStorage

theorem string_append_left_cancel (s a b : String) (h : s ++ a = s ++ b) : a = b := by
  have hd := congrArg String.data h
  simp only [String.data_append] at hd
  exact String.ext (List.append_cancel_left hd)

theorem isPrefixOf_append_cancel (l a b : List Char) :
    (l ++ a).isPrefixOf (l ++ b) = a.isPrefixOf b := by
  rw [Bool.eq_iff_iff, List.isPrefixOf_iff_prefix, List.isPrefixOf_iff_prefix]
  exact List.prefix_append_right_inj l

/-- The anchored full-path pattern of `flush` holds exactly when the file
name itself starts with `PREFIX ++ "_"`. -/
theorem reAnchorMatch_path_cancel (path name : String) :
    reAnchorMatch (path ++ "/" ++ PREFIX ++ "_") (path ++ "/" ++ name)
      = reAnchorMatch (PREFIX ++ "_") name := by
  have h1 : (path ++ "/" ++ PREFIX ++ "_").data
      = (path ++ "/").data ++ (PREFIX ++ "_").data := by
    simp [String.data_append, List.append_assoc]
  have h2 : (path ++ "/" ++ name).data = (path ++ "/").data ++ name.data := by
    simp [String.data_append]
  unfold reAnchorMatch
  rw [h1, h2, isPrefixOf_append_cancel]

/-- Process-local state of `FileMemoryStorage` (src/storage/file_memory.rs):
the in-memory HashMap plus the wrapped storage directory. -/
structure FMState where
  mem : List (String × Bytes)
  dir : Dir

namespace FileMemoryStorage

/-- `FileMemoryStorage::get`: consult the HashMap first; on a hit return the
cached bytes with no disk access.  On a miss run exactly the file-read code
of `FileStorage::get`; a successful read (of any length, empty included) is
inserted into the HashMap; an unopenable file yields `Ok(vec![])` with no
insertion. -/
def get (st : FMState) (name : String) : Except Err Bytes × FMState :=
  match lookupA st.mem name with
  | some v => (.ok v, st)
  | none =>
    match lookupA st.dir.files name with
    | none => (.ok [], st)
    | some e =>
      if e.openable then
        if e.readable then
          (.ok e.content, { st with mem := insertA st.mem name e.content })
        else (.error .ioError, st)
      else (.ok [], st)

/-- `FileMemoryStorage::set`: insert into the HashMap first, then perform the
file write (the same create/lock/write sequence as `FileStorage::set`); a
write failure returns the error but `self.mem` keeps the new value. -/
def set (st : FMState) (name : String) (val : Bytes) : Except Err Unit × FMState :=
  let st1 : FMState := { st with mem := insertA st.mem name val }
  match FileStorage.set st1.dir name val with
  | .ok d' => (.ok (), { st1 with dir := d' })
  | .error e => (.error e, st1)

end FileMemoryStorage

/-- State of `RedisStorage` (src/storage/redis.rs): the remote database
(modelled, per spec section 4.5, as a key-value map) and whether the single
connection opened at construction is still alive. -/
structure RState where
  db : List (String × Bytes)
  alive : Bool

/-- Commands `RedisStorage::flush` sends over the connection. -/
inductive RedisCmd where
  | keysCmd (pat : String)
  | delCmd (keys : List String)
deriving DecidableEq, Repr

/-- Membership test used to apply a bulk `DEL` to the database model. -/
def listHas : List String → String → Bool
  | [], _ => false
  | k :: r, n => if k = n then true else listHas r n

/-- The glob `KEYS {PREFIX}_*` matches exactly the keys starting with
`{PREFIX}_`. -/
def patMatches (s : String) : Bool :=
  (PREFIX ++ "_").data.isPrefixOf s.data

namespace RedisStorage

/-- `RedisStorage::get`: a remote GET; Redis answers nil for an absent key,
which the `Vec<u8>` conversion turns into empty bytes; a dead connection is a
connection error. -/
def get (rs : RState) (name : String) : Except Err Bytes :=
  if rs.alive then
    .ok ((lookupA rs.db name).getD [])
  else .error .connectionError

/-- `RedisStorage::set`: a remote SET; a non-success response (dead
connection) is an error for that call. -/
def set (rs : RState) (name : String) (val : Bytes) : Except Err RState :=
  if rs.alive then
    .ok { rs with db := insertA rs.db name val }
  else .error .connectionError

/-- The key listing returned by `KEYS {PREFIX}_*`. -/
def matching (rs : RState) : List String :=
  (rs.db.map Prod.fst).filter patMatches

/-- `RedisStorage::flush`: issue `KEYS {PREFIX}_*`, accumulate every returned
key as a `DEL` argument while counting them, and issue the single bulk `DEL`
only when the count is positive.  Returns the command trace and the result. -/
def flush (rs : RState) : List RedisCmd × Except Err RState :=
  if rs.alive then
    let ks := matching rs
    if ks.length > 0 then
      ([.keysCmd (PREFIX ++ "_*"), .delCmd ks],
        .ok { rs with db := rs.db.filter fun p => !(listHas ks p.1) })
    else ([.keysCmd (PREFIX ++ "_*")], .ok rs)
  else ([.keysCmd (PREFIX ++ "_*")], .error .connectionError)

end RedisStorage

/-- The spec's StoredEntry map: what the storage handle holds, one byte blob
per key, empty meaning absent. -/
abbrev Store := List (String × Bytes)

/-- `storage.get` on the byte-map model: the stored blob, or empty bytes when
the key is absent. -/
def storeGet (st : Store) (k : String) : Bytes :=
  (lookupA st k).getD []

/-- Outcome of one `cache!` invocation: the value handed back, the storage
left behind, and how many times `$func(...)` was evaluated. -/
structure CacheOut (ε α : Type) where
  result : Except ε α
  store : Store
  calls : Nat

/-- The body of the `cache!` macro (src/persistentcache.rs) after `var_name`
has been computed: `get` the blob; on length 0 evaluate `$func(...)` once and,
on success, `set` the `bincode`-encoded value; on a non-empty blob,
`bincode::deserialize` and never evaluate `$func`.  `compute` is the value of
the single `$func(...)` evaluation, `enc`/`dec` the bincode codec (both
fallible), and the storage is the fault-free byte-map model. -/
def cacheCall {ε α : Type} (st : Store) (key : String) (compute : Except ε α)
    (enc : α → Except ε Bytes) (dec : Bytes → Except ε α) : CacheOut ε α :=
  let r := storeGet st key
  if r.length = 0 then
    match compute with
    | .ok res =>
      match enc res with
      | .ok bs => { result := .ok res, store := insertA st key bs, calls := 1 }
      | .error e => { result := .error e, store := st, calls := 1 }
    | .error e => { result := .error e, store := st, calls := 1 }
  else
    match dec r with
    | .ok res => { result := .ok res, store := st, calls := 0 }
    | .error e => { result := .error e, store := st, calls := 0 }

/-- Truncation to 64 bits. -/
def w64 (n : Nat) : Nat := n % 18446744073709551616

/-- 64-bit left rotation (for `0 < n < 64` and `x < 2 ^ 64`). -/
def rotl64 (x n : Nat) : Nat := w64 ((x <<< n) + (x >>> (64 - n)))

/-- The four 64-bit lanes of the SipHash state. -/
structure SipState where
  v0 : Nat
  v1 : Nat
  v2 : Nat
  v3 : Nat

/-- One SIPROUND. -/
def sipRound (s : SipState) : SipState :=
  let a0 := w64 (s.v0 + s.v1)
  let b1 := rotl64 s.v1 13
  let c1 := b1 ^^^ a0
  let a1 := rotl64 a0 32
  let a2 := w64 (s.v2 + s.v3)
  let b3 := rotl64 s.v3 16
  let c3 := b3 ^^^ a2
  let d0 := w64 (a1 + c3)
  let d3 := rotl64 c3 21
  let e3 := d3 ^^^ d0
  let d2 := w64 (a2 + c1)
  let e1 := rotl64 c1 17
  let f1 := e1 ^^^ d2
  let f2 := rotl64 d2 32
  ⟨d0, f1, f2, e3⟩

/-- Little-endian value of a byte string (first byte least significant). -/
def leVal : Bytes → Nat
  | [] => 0
  | b :: r => b % 256 + 256 * leVal r

/-- Split a message into the 64-bit words SipHash processes: full 8-byte
little-endian words, then a final word holding the remaining bytes with the
total length (mod 256) in the top byte. -/
def sipWords : Bytes → Nat → List Nat
  | b0 :: b1 :: b2 :: b3 :: b4 :: b5 :: b6 :: b7 :: rest, total =>
    leVal [b0, b1, b2, b3, b4, b5, b6, b7] :: sipWords rest total
  | rest, total => [leVal rest + (total % 256) * 2 ^ 56]

/-- SipHash-1-3 with both keys zero: exactly the computation of
`std::collections::hash_map::DefaultHasher::new()` followed by `finish()`
after the message bytes are written.  One compression round per word, three
finalization rounds, `v2 ^= 0xff` before finalization. -/
def sip13 (msg : Bytes) : Nat :=
  let init : SipState :=
    ⟨0x736f6d6570736575, 0x646f72616e646f6d, 0x6c7967656e657261, 0x7465646279746573⟩
  let comp := (sipWords msg msg.length).foldl
    (fun (s : SipState) m =>
      let s1 := { s with v3 := s.v3 ^^^ m }
      let s2 := sipRound s1
      { s2 with v0 := s2.v0 ^^^ m }) init
  let fin := sipRound (sipRound (sipRound { comp with v2 := comp.v2 ^^^ 255 }))
  fin.v0 ^^^ fin.v1 ^^^ fin.v2 ^^^ fin.v3

/-- The byte stream the argument tuple writes into the hasher: each
argument's `Hash::hash` contribution (`contrib`), in call order.  Rust's
`Hash` contract constrains `contrib` only by `a == b → contrib a = contrib b`,
which any function satisfies. -/
def hasherStream {α : Type} (contrib : α → Bytes) (args : List α) : Bytes :=
  (args.map contrib).flatten

/-- The part of the cache key before the digest:
`{PREFIX}_{namespace}_{function-name}_`. -/
def keyStem (ns fname : String) : String :=
  PREFIX ++ "_" ++ ns ++ "_" ++ fname ++ "_"

/-- Cache-key derivation of the `cache!`/`cache_func!` macros
(src/persistentcache.rs): hash the argument tuple with `DefaultHasher` and
render `format!("{}_{}_{}_{:?}", PREFIX, $prefix, stringify!($f), s.finish())`
(`{:?}` on `u64` prints decimal). -/
def deriveKey {α : Type} (ns fname : String) (contrib : α → Bytes)
    (args : List α) : String :=
  keyStem ns fname ++ Nat.repr (sip13 (hasherStream contrib args))

/-- Atomic steps of one `cache_func!` / `#[persistent_cache]` invocation, as
far as locking is concerned. -/
inductive Act where
  | lock
  | unlock
  | getOp
  | computeOp
  | setOp
deriving DecidableEq, Repr

/-- The miss path of the `cache_func!` expansion (src/persistentcache.rs):
`S.lock().unwrap().get(&var_name)` — the `MutexGuard` is a temporary dropped
at the end of that statement — then the function body `$b`, then
`S.lock().unwrap().set(..)` under a fresh guard. -/
def cacheFuncMissTrace : List Act :=
  [.lock, .getOp, .unlock, .computeOp, .lock, .setOp, .unlock]

/-- The miss path generated by `function_persistenticator` in
persistentcache_procmacro/src/lib.rs: identical locking structure —
`S.lock().unwrap().get(..)`, then `#block`, then `S.lock().unwrap().set(..)`. -/
def procMacroMissTrace : List Act :=
  [.lock, .getOp, .unlock, .computeOp, .lock, .setOp, .unlock]

/-- The actions from the storage `get` up to (excluding) the storage `set`. -/
def gcsSegment (tr : List Act) : List Act :=
  (tr.dropWhile fun a => !(a == Act.getOp)).takeWhile fun a => !(a == Act.setOp)

/-- Whether the mutex is held continuously from the `get` through the `set`:
no `unlock` occurs strictly inside the get-compute-set span. -/
def heldThroughGCS (tr : List Act) : Bool :=
  !((gcsSegment tr).contains Act.unlock)

/-- Pair each action with whether the mutex is held when it executes. -/
def annotateHeld : List Act → Bool → List (Act × Bool)
  | [], _ => []
  | a :: r, held =>
    (a, held) ::
      annotateHeld r
        (match a with
          | .lock => true
          | .unlock => false
          | _ => held)

/-- Every storage `get` and `set` of the trace runs while the mutex is held. -/
def opsUnderLock (tr : List Act) : Bool :=
  (annotateHeld tr false).all fun p => !(p.1 == Act.getOp || p.1 == Act.setOp) || p.2

/-- The compute step of the trace runs while the mutex is free. -/
def computeOutsideLock (tr : List Act) : Bool :=
  (annotateHeld tr false).all fun p => !(p.1 == Act.computeOp) || !p.2

/-- Mutex discipline of an interleaving of several threads: `lock` only when
free, `unlock`/`get`/`set` only by the owner, `compute` anytime. -/
def mutexValid : List (Nat × Act) → Option Nat → Bool
  | [], _ => true
  | (t, Act.lock) :: r, none => mutexValid r (some t)
  | (_, Act.lock) :: _, some _ => false
  | (t, Act.unlock) :: r, some o => t == o && mutexValid r none
  | (_, Act.unlock) :: _, none => false
  | (t, Act.getOp) :: r, some o => t == o && mutexValid r (some o)
  | (_, Act.getOp) :: _, none => false
  | (t, Act.setOp) :: r, some o => t == o && mutexValid r (some o)
  | (_, Act.setOp) :: _, none => false
  | (_, Act.computeOp) :: r, o => mutexValid r o

/-- The actions thread `t` performs in a schedule, in order. -/
def projT (t : Nat) (s : List (Nat × Act)) : List Act :=
  (s.filter fun p => p.1 == t).map Prod.snd

/-- A concrete two-thread schedule in which both threads run the
`cache_func!` miss path on the same key. -/
def raceSched : List (Nat × Act) :=
  [(1, .lock), (1, .getOp), (1, .unlock),
   (2, .lock), (2, .getOp), (2, .unlock),
   (1, .computeOp), (2, .computeOp),
   (1, .lock), (1, .setOp), (1, .unlock),
   (2, .lock), (2, .setOp), (2, .unlock)]

/-- Thread 2's `get` falls strictly between thread 1's `get` and thread 1's
`set`: the two get-compute-set sequences interleave. -/
def interleavedGCS (s : List (Nat × Act)) : Bool :=
  Nat.blt (s.findIdx fun p => p == (1, Act.getOp)) (s.findIdx fun p => p == (2, Act.getOp)) &&
  Nat.blt (s.findIdx fun p => p == (2, Act.getOp)) (s.findIdx fun p => p == (1, Act.setOp))

/-- C1: for every key and compute function, the first `cache!` call with that
key evaluates `$func(...)` exactly once, persists the encoded result via
`storage.set`, and returns it; a second call with the identical key evaluates
`$func` zero times and returns the decoded previously-stored value — given
the spec's invariant that the stored encoding is non-empty and the codec
round-trips. -/
theorem c1_first_call_computes_once_second_call_hits
    {ε α : Type} (st : Store) (key : String) (res : α) (bs : Bytes)
    (compute2 : Except ε α) (enc : α → Except ε Bytes) (dec : Bytes → Except ε α)
    (hmiss : storeGet st key = [])
    (henc : enc res = .ok bs)
    (hbs : bs ≠ [])
    (hdec : dec bs = .ok res) :
    (cacheCall st key (.ok res) enc dec).calls = 1 ∧
    (cacheCall st key (.ok res) enc dec).result = .ok res ∧
    (cacheCall st key (.ok res) enc dec).store = insertA st key bs ∧
    (cacheCall (insertA st key bs) key compute2 enc dec).calls = 0 ∧
    (cacheCall (insertA st key bs) key compute2 enc dec).result = .ok res ∧
    (cacheCall (insertA st key bs) key compute2 enc dec).store = insertA st key bs := by
  have h1 : storeGet (insertA st key bs) key = bs := by
    unfold storeGet
    rw [lookupA_insertA_self]
    rfl
  refine ⟨?_, ?_, ?_, ?_, ?_, ?_⟩ <;>
    simp [cacheCall, hmiss, h1, henc, hdec, List.length_eq_zero, hbs]

theorem c1_witness :
    (cacheCall ([] : Store) "pc_DEF_f_0" (Except.ok 4) (fun n => Except.ok [n])
      (fun l : Bytes => match l with | [n] => Except.ok n | _ => Except.error ())).calls = 1 ∧
    (cacheCall ([] : Store) "pc_DEF_f_0" (Except.ok 4) (fun n => Except.ok [n])
      (fun l : Bytes => match l with | [n] => Except.ok n | _ => Except.error ())).result
        = Except.ok 4 ∧
    (cacheCall ([] : Store) "pc_DEF_f_0" (Except.ok 4) (fun n => Except.ok [n])
      (fun l : Bytes => match l with | [n] => Except.ok n | _ => Except.error ())).store
        = insertA [] "pc_DEF_f_0" [4] ∧
    (cacheCall (insertA [] "pc_DEF_f_0" [4]) "pc_DEF_f_0" (Except.error ())
      (fun n => Except.ok [n])
      (fun l : Bytes => match l with | [n] => Except.ok n | _ => Except.error ())).calls = 0 ∧
    (cacheCall (insertA [] "pc_DEF_f_0" [4]) "pc_DEF_f_0" (Except.error ())
      (fun n => Except.ok [n])
      (fun l : Bytes => match l with | [n] => Except.ok n | _ => Except.error ())).result
        = Except.ok 4 ∧
    (cacheCall (insertA [] "pc_DEF_f_0" [4]) "pc_DEF_f_0" (Except.error ())
      (fun n => Except.ok [n])
      (fun l : Bytes => match l with | [n] => Except.ok n | _ => Except.error ())).store
        = insertA [] "pc_DEF_f_0" [4] :=
  c1_first_call_computes_once_second_call_hits [] "pc_DEF_f_0" 4 [4] (Except.error ())
    (fun n => Except.ok [n])
    (fun l : Bytes => match l with | [n] => Except.ok n | _ => Except.error ())
    rfl rfl (by decide) rfl

/-- C4: whenever the stored entry is non-empty, `cache!` evaluates `$func`
zero times, leaves the storage untouched, and hands back exactly the decoder
outcome — so a decode failure propagates as an error and is never treated as
a miss. -/
theorem c4_nonempty_entry_never_recomputed
    {ε α : Type} (st : Store) (key : String) (compute : Except ε α)
    (enc : α → Except ε Bytes) (dec : Bytes → Except ε α)
    (hhit : storeGet st key ≠ []) :
    (cacheCall st key compute enc dec).calls = 0 ∧
    (cacheCall st key compute enc dec).store = st ∧
    (cacheCall st key compute enc dec).result = dec (storeGet st key) := by
  have hlen : ¬(storeGet st key).length = 0 := by
    simpa [List.length_eq_zero] using hhit
  cases hd : dec (storeGet st key) with
  | error e => refine ⟨?_, ?_, ?_⟩ <;> simp [cacheCall, hlen, hd]
  | ok r => refine ⟨?_, ?_, ?_⟩ <;> simp [cacheCall, hlen, hd]

theorem c4_witness :
    (cacheCall [("pc_DEF_f_0", [9])] "pc_DEF_f_0" (Except.ok 0)
      (fun n => Except.ok [n]) (fun _ : Bytes => Except.error ())).calls = 0 ∧
    (cacheCall [("pc_DEF_f_0", [9])] "pc_DEF_f_0" (Except.ok 0)
      (fun n => Except.ok [n]) (fun _ : Bytes => Except.error ())).store
        = [("pc_DEF_f_0", [9])] ∧
    (cacheCall [("pc_DEF_f_0", [9])] "pc_DEF_f_0" (Except.ok 0)
      (fun n => Except.ok [n]) (fun _ : Bytes => Except.error ())).result
        = Except.error () :=
  c4_nonempty_entry_never_recomputed [("pc_DEF_f_0", [9])] "pc_DEF_f_0" (Except.ok 0)
    (fun n => Except.ok [n]) (fun _ : Bytes => Except.error ()) (by decide)

/-- C3 counterexample: a file that exists but cannot be opened (e.g. denied
permission).  `FileStorage::get` returns `Ok(vec![])` — empty bytes, not an
`IOError` — because the code maps every `File::open` failure to empty bytes;
so "empty exactly when the file does not exist" is false. -/
theorem c3_counterexample :
    lookupA (Dir.mk [("pc_DEF_f_1", ⟨[1], false, true⟩)] fun _ => true).files
        "pc_DEF_f_1" = some ⟨[1], false, true⟩ ∧
    FileStorage.get (Dir.mk [("pc_DEF_f_1", ⟨[1], false, true⟩)] fun _ => true)
        "pc_DEF_f_1" = .ok [] :=
  ⟨rfl, rfl⟩

/-- C3 amended: `FileStorage::get` returns empty bytes whenever opening the
file fails for any reason (absent file or unopenable existing file); an
`IOError` arises only from a lock/read failure after a successful open, and a
fault-free existing file yields its contents. -/
theorem c3_amended_get_empty_iff_open_fails
    (d : Dir) (n1 n2 n3 n4 : String) (e2 e3 e4 : FileEntry)
    (h1 : lookupA d.files n1 = none)
    (h2 : lookupA d.files n2 = some e2) (h2o : e2.openable = false)
    (h3 : lookupA d.files n3 = some e3) (h3o : e3.openable = true)
    (h3r : e3.readable = false)
    (h4 : lookupA d.files n4 = some e4) (h4o : e4.openable = true)
    (h4r : e4.readable = true) :
    FileStorage.get d n1 = .ok [] ∧
    FileStorage.get d n2 = .ok [] ∧
    FileStorage.get d n3 = .error .ioError ∧
    FileStorage.get d n4 = .ok e4.content := by
  refine ⟨?_, ?_, ?_, ?_⟩ <;>
    simp [FileStorage.get, h1, h2, h2o, h3, h3o, h3r, h4, h4o, h4r]

theorem c3_amended_witness :
    FileStorage.get (Dir.mk [("a", ⟨[1], false, true⟩), ("b", ⟨[2], true, false⟩),
        ("c", ⟨[3], true, true⟩)] fun _ => true) "absent" = .ok [] ∧
    FileStorage.get (Dir.mk [("a", ⟨[1], false, true⟩), ("b", ⟨[2], true, false⟩),
        ("c", ⟨[3], true, true⟩)] fun _ => true) "a" = .ok [] ∧
    FileStorage.get (Dir.mk [("a", ⟨[1], false, true⟩), ("b", ⟨[2], true, false⟩),
        ("c", ⟨[3], true, true⟩)] fun _ => true) "b" = .error .ioError ∧
    FileStorage.get (Dir.mk [("a", ⟨[1], false, true⟩), ("b", ⟨[2], true, false⟩),
        ("c", ⟨[3], true, true⟩)] fun _ => true) "c"
      = .ok (FileEntry.mk [3] true true).content :=
  c3_amended_get_empty_iff_open_fails
    (Dir.mk [("a", ⟨[1], false, true⟩), ("b", ⟨[2], true, false⟩),
      ("c", ⟨[3], true, true⟩)] fun _ => true)
    "absent" "a" "b" "c" ⟨[1], false, true⟩ ⟨[2], true, false⟩ ⟨[3], true, true⟩
    rfl rfl rfl rfl rfl rfl rfl rfl rfl

/-- C6 counterexample: an existing zero-length file.  On a memory miss,
`FileMemoryStorage::get` reads it successfully and inserts the empty byte
string into the in-memory map — contradicting "inserts only when the bytes
are non-empty / a zero-length entry is never cached". -/
theorem c6_counterexample :
    (FileMemoryStorage.get
        (FMState.mk [] (Dir.mk [("pc_DEF_f_1", ⟨[], true, true⟩)] fun _ => true))
        "pc_DEF_f_1").1 = .ok [] ∧
    lookupA (FileMemoryStorage.get
        (FMState.mk [] (Dir.mk [("pc_DEF_f_1", ⟨[], true, true⟩)] fun _ => true))
        "pc_DEF_f_1").2.mem "pc_DEF_f_1" = some [] :=
  ⟨rfl, rfl⟩

/-- C6 amended: `FileMemoryStorage::get` checks the in-memory map first and
on a hit returns the cached bytes with no state change; on a miss it
delegates to the file store and inserts whatever bytes a successful file read
returns — zero-length included — into the map; an absent file yields empty
bytes with no insertion. -/
theorem c6_amended_get_inserts_any_successful_read
    (st : FMState) (n1 n2 n3 : String) (v : Bytes) (e : FileEntry)
    (h1 : lookupA st.mem n1 = some v)
    (h2 : lookupA st.mem n2 = none) (h2f : lookupA st.dir.files n2 = none)
    (h3 : lookupA st.mem n3 = none) (h3f : lookupA st.dir.files n3 = some e)
    (h3o : e.openable = true) (h3r : e.readable = true) :
    FileMemoryStorage.get st n1 = (.ok v, st) ∧
    FileMemoryStorage.get st n2 = (.ok [], st) ∧
    FileMemoryStorage.get st n3
      = (.ok e.content, { st with mem := insertA st.mem n3 e.content }) := by
  refine ⟨?_, ?_, ?_⟩ <;>
    simp [FileMemoryStorage.get, h1, h2, h2f, h3, h3f, h3o, h3r]

theorem c6_amended_witness :
    FileMemoryStorage.get
        (FMState.mk [("m", [5])]
          (Dir.mk [("f", ⟨[], true, true⟩)] fun _ => true)) "m"
      = (.ok [5], FMState.mk [("m", [5])]
          (Dir.mk [("f", ⟨[], true, true⟩)] fun _ => true)) ∧
    FileMemoryStorage.get
        (FMState.mk [("m", [5])]
          (Dir.mk [("f", ⟨[], true, true⟩)] fun _ => true)) "absent"
      = (.ok [], FMState.mk [("m", [5])]
          (Dir.mk [("f", ⟨[], true, true⟩)] fun _ => true)) ∧
    FileMemoryStorage.get
        (FMState.mk [("m", [5])]
          (Dir.mk [("f", ⟨[], true, true⟩)] fun _ => true)) "f"
      = (.ok (FileEntry.mk [] true true).content,
          { FMState.mk [("m", [5])] (Dir.mk [("f", ⟨[], true, true⟩)] fun _ => true) with
              mem := insertA [("m", [5])] "f" (FileEntry.mk [] true true).content }) :=
  c6_amended_get_inserts_any_successful_read
    (FMState.mk [("m", [5])] (Dir.mk [("f", ⟨[], true, true⟩)] fun _ => true))
    "m" "absent" "f" [5] ⟨[], true, true⟩ rfl rfl rfl rfl rfl rfl rfl

/-- C10: `FileMemoryStorage::set` inserts into the in-memory map before
attempting the file write; when the write fails it returns an `IOError`, yet
the map retains the new value (the directory is unchanged) and a subsequent
`get` on the same instance serves the new bytes from memory. -/
theorem c10_set_not_atomic_on_write_failure
    (st : FMState) (name : String) (v : Bytes)
    (hw : st.dir.writable name = false) :
    FileMemoryStorage.set st name v
      = (.error .ioError, { st with mem := insertA st.mem name v }) ∧
    lookupA (insertA st.mem name v) name = some v ∧
    FileMemoryStorage.get { st with mem := insertA st.mem name v } name
      = (.ok v, { st with mem := insertA st.mem name v }) := by
  refine ⟨?_, lookupA_insertA_self _ _ _, ?_⟩
  · simp [FileMemoryStorage.set, FileStorage.set, hw]
  · simp [FileMemoryStorage.get, lookupA_insertA_self]

theorem c10_witness :
    FileMemoryStorage.set (FMState.mk [] (Dir.mk [] fun _ => false)) "pc_DEF_f_1" [7]
      = (.error .ioError,
          { FMState.mk [] (Dir.mk [] fun _ => false) with
              mem := insertA [] "pc_DEF_f_1" [7] }) ∧
    lookupA (insertA [] "pc_DEF_f_1" [7]) "pc_DEF_f_1" = some [7] ∧
    FileMemoryStorage.get
        { FMState.mk [] (Dir.mk [] fun _ => false) with
            mem := insertA [] "pc_DEF_f_1" [7] } "pc_DEF_f_1"
      = (.ok [7],
          { FMState.mk [] (Dir.mk [] fun _ => false) with
              mem := insertA [] "pc_DEF_f_1" [7] }) :=
  c10_set_not_atomic_on_write_failure
    (FMState.mk [] (Dir.mk [] fun _ => false)) "pc_DEF_f_1" [7] rfl

/-- C5: for each backend, a successful `set(k, v)` followed immediately by
`get(k)` returns exactly `v`, byte for byte — `FileStorage` reads back the
file just written, `FileMemoryStorage` serves the fresh in-memory entry, and
`RedisStorage` reads back the stored value over the live connection. -/
theorem c5_set_get_roundtrip_all_backends
    (d d' : Dir) (st st' : FMState) (rs rs' : RState) (k : String) (v : Bytes)
    (hf : FileStorage.set d k v = .ok d')
    (hm : FileMemoryStorage.set st k v = (.ok (), st'))
    (hr : RedisStorage.set rs k v = .ok rs') :
    FileStorage.get d' k = .ok v ∧
    FileMemoryStorage.get st' k = (.ok v, st') ∧
    RedisStorage.get rs' k = .ok v := by
  refine ⟨?_, ?_, ?_⟩
  · unfold FileStorage.set at hf
    by_cases hwr : d.writable k
    · rw [if_pos hwr] at hf
      injection hf with h
      subst h
      simp [FileStorage.get, lookupA_insertA_self]
    · rw [if_neg hwr] at hf
      exact absurd hf (by simp)
  · simp only [FileMemoryStorage.set] at hm
    cases hfs : FileStorage.set st.dir k v with
    | error e =>
      rw [hfs] at hm
      simp at hm
    | ok d2 =>
      rw [hfs] at hm
      simp only [Prod.mk.injEq] at hm
      obtain ⟨-, hst⟩ := hm
      subst hst
      simp [FileMemoryStorage.get, lookupA_insertA_self]
  · unfold RedisStorage.set at hr
    by_cases ha : rs.alive
    · rw [if_pos ha] at hr
      injection hr with h
      subst h
      simp [RedisStorage.get, ha, lookupA_insertA_self]
    · rw [if_neg ha] at hr
      exact absurd hr (by simp)

theorem c5_witness :
    FileStorage.get (Dir.mk (insertA [] "pc_DEF_add_1" ⟨[4], true, true⟩) fun _ => true)
        "pc_DEF_add_1" = .ok [4] ∧
    FileMemoryStorage.get
        (FMState.mk (insertA [] "pc_DEF_add_1" [4])
          (Dir.mk (insertA [] "pc_DEF_add_1" ⟨[4], true, true⟩) fun _ => true))
        "pc_DEF_add_1"
      = (.ok [4], FMState.mk (insertA [] "pc_DEF_add_1" [4])
          (Dir.mk (insertA [] "pc_DEF_add_1" ⟨[4], true, true⟩) fun _ => true)) ∧
    RedisStorage.get (RState.mk (insertA [] "pc_DEF_add_1" [4]) true) "pc_DEF_add_1"
      = .ok [4] :=
  c5_set_get_roundtrip_all_backends
    (Dir.mk [] fun _ => true)
    (Dir.mk (insertA [] "pc_DEF_add_1" ⟨[4], true, true⟩) fun _ => true)
    (FMState.mk [] (Dir.mk [] fun _ => true))
    (FMState.mk (insertA [] "pc_DEF_add_1" [4])
      (Dir.mk (insertA [] "pc_DEF_add_1" ⟨[4], true, true⟩) fun _ => true))
    (RState.mk [] true)
    (RState.mk (insertA [] "pc_DEF_add_1" [4]) true)
    "pc_DEF_add_1" [4] rfl rfl rfl

/-- C7: `FileStorage::flush` removes exactly the entries whose file name
starts with `{PREFIX}_` and leaves every other entry present with unchanged
content, for every directory path. -/
theorem c7_flush_removes_exactly_global_prefixed
    (path : String) (d : Dir) (name : String) :
    lookupA (FileStorage.flush path d).files name
      = if reAnchorMatch (PREFIX ++ "_") name then none
        else lookupA d.files name := by
  have hshape : (FileStorage.flush path d).files
      = d.files.filter
        (fun p => (fun k => !(reAnchorMatch (path ++ "/" ++ PREFIX ++ "_")
          (path ++ "/" ++ k))) p.1) := rfl
  rw [hshape, lookupA_filter
    (fun k => !(reAnchorMatch (path ++ "/" ++ PREFIX ++ "_") (path ++ "/" ++ k)))]
  simp only [reAnchorMatch_path_cancel]
  cases h : reAnchorMatch (PREFIX ++ "_") name <;> simp [h]

/-- C8 counterexample: a legal `Hash` implementation that writes nothing (the
`Hash` contract only requires equal values to hash equally).  For two
distinct values of such a type, swapping the two arguments feeds the hasher
the identical byte stream, so the derived keys coincide. -/
theorem c8_counterexample :
    true ≠ false ∧
    deriveKey "DEF" "f" (fun _ : Bool => ([] : Bytes)) [true, false]
      = deriveKey "DEF" "f" (fun _ : Bool => ([] : Bytes)) [false, true] :=
  ⟨by decide, rfl⟩

/-- C8 amended: key derivation feeds the arguments to the hasher strictly in
call order, so for two arguments whose hash contributions are distinct byte
strings of equal length (as for any two distinct values of a fixed-width
integer type), the hasher input for `[a, b]` differs from the input for
`[b, a]`; the derived keys then differ whenever the rendered 64-bit digests
of those two different streams differ (key equality requires a digest
collision of the non-cryptographic hash, a risk the spec accepts). -/
theorem c8_amended_swapped_args_change_hasher_input
    {α : Type} (contrib : α → Bytes) (a b : α) (ns fname : String)
    (hne : contrib a ≠ contrib b)
    (hlen : (contrib a).length = (contrib b).length) :
    hasherStream contrib [a, b] ≠ hasherStream contrib [b, a] ∧
    (Nat.repr (sip13 (hasherStream contrib [a, b]))
        ≠ Nat.repr (sip13 (hasherStream contrib [b, a])) →
      deriveKey ns fname contrib [a, b] ≠ deriveKey ns fname contrib [b, a]) := by
  constructor
  · intro h
    simp only [hasherStream, List.map, List.flatten, List.append_nil] at h
    exact hne (List.append_inj h hlen).1
  · intro hd hk
    apply hd
    have hdata := congrArg String.data hk
    unfold deriveKey at hdata
    simp only [String.data_append] at hdata
    exact String.ext (List.append_cancel_left hdata)

theorem c8_amended_witness :
    (fun n : Nat => [n % 256]) 6 ≠ (fun n : Nat => [n % 256]) 2 ∧
    hasherStream (fun n : Nat => [n % 256]) [6, 2]
      ≠ hasherStream (fun n : Nat => [n % 256]) [2, 6] ∧
    deriveKey "DEF" "test_func_2" (fun n : Nat => [n % 256]) [6, 2]
      ≠ deriveKey "DEF" "test_func_2" (fun n : Nat => [n % 256]) [2, 6] :=
  ⟨by decide,
   (c8_amended_swapped_args_change_hasher_input (fun n : Nat => [n % 256]) 6 2
     "DEF" "test_func_2" (by decide) (by decide)).1,
   (c8_amended_swapped_args_change_hasher_input (fun n : Nat => [n % 256]) 6 2
     "DEF" "test_func_2" (by decide) (by decide)).2 (by decide)⟩

theorem listHas_true_iff (l : List String) (s : String) :
    listHas l s = true ↔ s ∈ l := by
  induction l with
  | nil => simp [listHas]
  | cons k r ih =>
    by_cases h : k = s
    · subst h
      simp [listHas]
    · simp [listHas, h, ih, Ne.symm h]

/-- For an entry of the database, membership in the `KEYS` listing is exactly
the pattern match. -/
theorem listHas_matching (db : List (String × Bytes)) (p : String × Bytes)
    (hp : p ∈ db) :
    listHas ((db.map Prod.fst).filter patMatches) p.1 = patMatches p.1 := by
  cases hq : patMatches p.1 with
  | false =>
    cases hl : listHas ((db.map Prod.fst).filter patMatches) p.1 with
    | false => rfl
    | true =>
      rw [listHas_true_iff] at hl
      have hmem := (List.mem_filter.mp hl).2
      rw [hq] at hmem
      exact absurd hmem (by decide)
  | true =>
    rw [listHas_true_iff]
    exact List.mem_filter.mpr ⟨List.mem_map.mpr ⟨p, hp, rfl⟩, hq⟩

/-- C9: over a live connection, `RedisStorage::flush` issues the
`KEYS {PREFIX}_*` listing and then exactly one bulk `DEL` covering all
matched keys — deleting precisely the matching entries — and when zero keys
match it issues no `DEL` at all and still succeeds. -/
theorem c9_flush_one_bulk_del_or_none (rs : RState) (h : rs.alive = true) :
    RedisStorage.flush rs
      = if (RedisStorage.matching rs).length = 0 then
          ([.keysCmd (PREFIX ++ "_*")], .ok rs)
        else
          ([.keysCmd (PREFIX ++ "_*"), .delCmd (RedisStorage.matching rs)],
            .ok { rs with db := rs.db.filter fun p => !(patMatches p.1) }) := by
  simp only [RedisStorage.flush, RedisStorage.matching, h]
  by_cases hl : ((rs.db.map Prod.fst).filter patMatches).length = 0
  · simp [hl]
  · have hgt : 0 < ((rs.db.map Prod.fst).filter patMatches).length :=
      Nat.pos_of_ne_zero hl
    have hdb : (rs.db.filter fun p => !(listHas ((rs.db.map Prod.fst).filter patMatches) p.1))
        = rs.db.filter fun p => !(patMatches p.1) := by
      apply List.filter_congr
      intro p hp
      rw [listHas_matching rs.db p hp]
    simp [hl, hgt, hdb]

theorem c9_witness :
    RedisStorage.flush (RState.mk [("pc_a", [1]), ("q", [2])] true)
      = if (RedisStorage.matching (RState.mk [("pc_a", [1]), ("q", [2])] true)).length = 0
        then ([.keysCmd (PREFIX ++ "_*")], .ok (RState.mk [("pc_a", [1]), ("q", [2])] true))
        else
          ([.keysCmd (PREFIX ++ "_*"),
            .delCmd (RedisStorage.matching (RState.mk [("pc_a", [1]), ("q", [2])] true))],
            .ok { RState.mk [("pc_a", [1]), ("q", [2])] true with
                    db := [("pc_a", [1]), ("q", [2])].filter fun p => !(patMatches p.1) }) :=
  c9_flush_one_bulk_del_or_none (RState.mk [("pc_a", [1]), ("q", [2])] true) rfl

/-- C2 counterexample: in the miss path of both `cache_func!` and the
`#[persistent_cache]` expansion, the mutex is released between the `get` and
the `set` (the guard is a statement-scoped temporary), and a mutex-respecting
two-thread schedule exists in which both threads run the full miss path on
the same key with thread 2's `get` strictly between thread 1's `get` and
`set` — both compute. -/
theorem c2_counterexample :
    heldThroughGCS cacheFuncMissTrace = false ∧
    heldThroughGCS procMacroMissTrace = false ∧
    mutexValid raceSched none = true ∧
    projT 1 raceSched = cacheFuncMissTrace ∧
    projT 2 raceSched = cacheFuncMissTrace ∧
    interleavedGCS raceSched = true := by decide

/-- C2 amended: each individual storage `get` and `set` of the memoized
function is performed while holding the function's single mutex, but the
mutex is not held during the compute step, so the lock serializes the storage
operations only, not the whole get-compute-set sequence. -/
theorem c2_amended_mutex_per_operation_not_per_sequence :
    opsUnderLock cacheFuncMissTrace = true ∧
    computeOutsideLock cacheFuncMissTrace = true ∧
    opsUnderLock procMacroMissTrace = true ∧
    computeOutsideLock procMacroMissTrace = true := by decide
